import Mathlib

/-!
Verification of the `spi_exam_flask_app` question-set store and exam
session state machine, shallowly embedded from
`spi_exam_flask_app/data_loader.py` and `spi_exam_flask_app/app.py`.

JSON documents are modelled by an inductive `Json` value; the module-level
mutable index and cache become explicit arguments and results; the
filesystem is a pair of partial functions (stat, read); Flask's session
dict becomes a record of optional fields with the same read-defaults the
handlers use; Python exceptions become `Except` / error responses.
-/

/-- A JSON value as produced by `json.load`: null, booleans, integer
numbers, strings, arrays and objects.  Non-integer numbers never occur in
the data these claims touch, so numbers are modelled as integers. -/
inductive Json where
  | null : Json
  | bool : Bool → Json
  | num : Int → Json
  | str : String → Json
  | arr : List Json → Json
  | obj : List (String × Json) → Json

/-- Key lookup in the field list of a JSON object (Python `dict` access;
`json.load` produces unique keys). -/
def lookupField : List (String × Json) → String → Option Json
  | [], _ => none
  | (k, v) :: rest, key => if k = key then some v else lookupField rest key

/-- `data.get(key)` on a JSON value: a lookup on objects, `None` otherwise. -/
def Json.get : Json → String → Option Json
  | .obj fields, key => lookupField fields key
  | _, _ => none

/-- `data["title"]` on a validated exam document (string field). -/
def jTitle (data : Json) : String :=
  match data.get "title" with
  | some (.str s) => s
  | _ => ""

/-- `data["questions"]` on a validated exam document (array field). -/
def jQuestions (data : Json) : List Json :=
  match data.get "questions" with
  | some (.arr qs) => qs
  | _ => []

/-- `data["time_per_question_sec"]` on a validated exam document. -/
def jTime (data : Json) : Int :=
  match data.get "time_per_question_sec" with
  | some (.num n) => n
  | _ => 0

/-- `q["answer_index"]` on a validated question (integer field). -/
def q_answer_index (q : Json) : Int :=
  match q.get "answer_index" with
  | some (.num n) => n
  | _ => 0

/-- `_validate_question` from `data_loader.py`: the question is a dict with
`options`, `answer_index` and `prompt_html` keys, `options` is a list of
length at least 2, and `answer_index` is an integer within its range. -/
def validate_question (question : Json) : Bool :=
  match question with
  | .obj _ =>
    match question.get "options", question.get "answer_index", question.get "prompt_html" with
    | some options, some ai, some _ =>
      (match options with
       | .arr opts =>
         decide (2 ≤ opts.length) &&
           (match ai with
            | .num n => decide (0 ≤ n) && decide (n < (opts.length : Int))
            | _ => false)
       | _ => false)
    | _, _, _ => false
  | _ => false

/-- `_validate_exam` from `data_loader.py`: top level is a dict, `version`
equals 1, the `mode`/`category`/`slug` fields equal the expected values,
`title` is a non-empty string, `description` a string,
`time_per_question_sec` an integer in [1, 600], and `questions` a
non-empty list of valid questions. -/
def validate_exam (data : Json) (mode category slug : String) : Bool :=
  match data with
  | .obj _ =>
    (match data.get "version" with
     | some (.num 1) => true
     | _ => false) &&
    (match data.get "mode" with
     | some (.str s) => s == mode
     | _ => false) &&
    (match data.get "category" with
     | some (.str s) => s == category
     | _ => false) &&
    (match data.get "slug" with
     | some (.str s) => s == slug
     | _ => false) &&
    (match data.get "title" with
     | some (.str t) => !(t == "")
     | _ => false) &&
    (match data.get "description" with
     | some (.str _) => true
     | _ => false) &&
    (match data.get "time_per_question_sec" with
     | some (.num t) => decide (1 ≤ t) && decide (t ≤ 600)
     | _ => false) &&
    (match data.get "questions" with
     | some (.arr qs) => !(qs.isEmpty) && qs.all validate_question
     | _ => false)
  | _ => false

/-- A character allowed by the character class `[a-z0-9_\-]` of
`_SLUG_RE` (ASCII lowercase letter, ASCII digit, underscore or hyphen). -/
def slugChar (c : Char) : Bool :=
  c.isLower || c.isDigit || c == '_' || c == '-'

/-- A non-empty string made only of slug characters. -/
def slugCore (s : String) : Bool :=
  !(s.isEmpty) && s.toList.all slugChar

/-- `_SLUG_RE.match(slug)` where `_SLUG_RE = re.compile(r"^[a-z0-9_\-]+$")`:
in Python's default regex mode `$` matches at the end of the string or
just before a newline at the end of the string, so the pattern also
accepts a slug-shaped string followed by one trailing newline. -/
def slugMatch (s : String) : Bool :=
  slugCore s ||
    (match s.toList.getLast? with
     | some c => (c == '\n') && slugCore (String.mk s.toList.dropLast)
     | none => false)

/-- The slug pattern as the specification words it: a full-string match of
`[a-z0-9_-]+`, with no newline tolerance.  Stated only to compare the
spec's wording with the source's `slugMatch`. -/
def specSlugPattern (s : String) : Bool :=
  !(s.isEmpty) && s.toList.all slugChar

/-- `ExamMeta` from `data_loader.py`; `path` is the opaque handle of the
backing file. -/
structure ExamMeta where
  mode : String
  category : String
  slug : String
  path : String
  title : String
  num_questions : Nat
  time_per_question_sec : Int
deriving DecidableEq

/-- The index built by `build_index`: a mapping from slug to metadata
(Python dict, modelled as a function). -/
abbrev ExamIndex := String → Option ExamMeta

/-- The empty index. -/
def emptyIdx : ExamIndex := fun _ => none

/-- One `<slug>.json` file found by the directory scan: its stem and the
outcome of `json.load` (`none` models a JSON parse failure). -/
structure JsonFile where
  stem : String
  content : Option Json

/-- One category directory with its `*.json` files. -/
structure CatDir where
  name : String
  files : List JsonFile

/-- One mode directory with its category subdirectories. -/
structure ModeDir where
  name : String
  cats : List CatDir

/-- The `ExamMeta` recorded by `build_index` for a validated file. -/
def metaOf (mode category : String) (f : JsonFile) (data : Json) : ExamMeta :=
  ⟨mode, category, f.stem,
   mode ++ "/" ++ category ++ "/" ++ f.stem ++ ".json",
   jTitle data, (jQuestions data).length, jTime data⟩

/-- The body of the innermost loop of `build_index`: skip the file when it
failed to parse or fails validation, otherwise record its metadata under
its stem (overwriting any earlier entry for the same slug). -/
def stepFile (mode category : String) (idx : ExamIndex) (f : JsonFile) : ExamIndex :=
  match f.content with
  | none => idx
  | some data =>
    if validate_exam data mode category f.stem then
      fun s => if s = f.stem then some (metaOf mode category f data) else idx s
    else idx

/-- `build_index` from `data_loader.py`: an absent root yields the empty
index; otherwise scan mode directories, then category directories, then
their JSON files. -/
def build_index (root : Option (List ModeDir)) : ExamIndex :=
  match root with
  | none => emptyIdx
  | some modes =>
    modes.foldl
      (fun idx md =>
        md.cats.foldl
          (fun idx2 cd => cd.files.foldl (stepFile md.name cd.name) idx2)
          idx)
      emptyIdx

/-- The files visited by `build_index`, flattened in scan order, each
paired with its mode and category directory names. -/
def allFiles (modes : List ModeDir) : List (String × String × JsonFile) :=
  modes.flatMap (fun md => md.cats.flatMap (fun cd => cd.files.map (fun f => (md.name, cd.name, f))))

/-- `stepFile` reshaped to act on a flattened (mode, category, file)
triple. -/
def stepT (idx : ExamIndex) (t : String × String × JsonFile) : ExamIndex :=
  stepFile t.1 t.2.1 idx t.2.2

/-- A scanned file that parses and passes validation against its
directory-derived mode, category and stem. -/
def validFile (mode category : String) (f : JsonFile) : Bool :=
  match f.content with
  | some data => validate_exam data mode category f.stem
  | none => false

/-- `validFile` on a flattened triple. -/
def validT (t : String × String × JsonFile) : Bool :=
  validFile t.1 t.2.1 t.2.2

/-- The filesystem as seen by `load_set`: `stat` returns a file's current
modification time (`none` models an OSError), `read` the parsed content of
the file (`none` models a read or JSON parse failure). -/
structure FS where
  stat : String → Option Int
  read : String → Option Json

/-- The module-level `_CACHE`: per-slug (mtime, data) entries. -/
abbrev ExamCache := String → Option (Int × Json)

/-- The empty cache. -/
def emptyCache : ExamCache := fun _ => none

/-- The ways `load_set` can raise: `ValueError("invalid slug")`,
`KeyError(slug)`, a stat failure, a read/parse failure, and
`ValueError("invalid exam data")`. -/
inductive LoadErr where
  | invalidSlug
  | unknownSlug
  | statError
  | parseError
  | invalidData
deriving DecidableEq

/-- The outcome of one `load_set` call: its return value or exception, the
cache after the call, and how many times the backing file was opened. -/
structure LoadResult where
  result : Except LoadErr Json
  cache : ExamCache
  reads : Nat

/-- The re-read branch of `load_set`: open and parse the file, re-validate
against the recorded mode/category/slug, and on success replace the cache
entry with (current mtime, parsed data). -/
def readAndValidate (fs : FS) (cache : ExamCache) (slug : String) (m : ExamMeta)
    (mtime : Int) : LoadResult :=
  match fs.read m.path with
  | none => ⟨.error .parseError, cache, 1⟩
  | some data =>
    if validate_exam data m.mode m.category m.slug then
      ⟨.ok data, fun s => if s = slug then some (mtime, data) else cache s, 1⟩
    else ⟨.error .invalidData, cache, 1⟩

/-- `load_set` from `data_loader.py`: reject a slug the pattern refuses,
then an unindexed slug; stat the backing file; serve the cached entry when
its recorded mtime is at least the file's current mtime; otherwise re-read
and re-validate. -/
def load_set (idx : ExamIndex) (fs : FS) (cache : ExamCache) (slug : String) : LoadResult :=
  if slugMatch slug then
    match idx slug with
    | none => ⟨.error .unknownSlug, cache, 0⟩
    | some m =>
      match fs.stat m.path with
      | none => ⟨.error .statError, cache, 0⟩
      | some mtime =>
        match cache slug with
        | some c =>
          if mtime ≤ c.1 then ⟨.ok c.2, cache, 0⟩
          else readAndValidate fs cache slug m mtime
        | none => readAndValidate fs cache slug m mtime
  else ⟨.error .invalidSlug, cache, 0⟩

/-- The value of a non-empty all-digit character sequence, `none`
otherwise. -/
def digitsVal (cs : List Char) : Option Nat :=
  if cs = [] then none
  else if cs.all Char.isDigit then
    some (cs.foldl (fun a c => a * 10 + (c.toNat - 48)) 0)
  else none

/-- Leading and trailing whitespace characters of a character list,
removed. -/
def stripWS (cs : List Char) : List Char :=
  ((cs.dropWhile Char.isWhitespace).reverse.dropWhile Char.isWhitespace).reverse

/-- Python `int(s)` on a string: surrounding whitespace is stripped, an
optional sign precedes a non-empty digit sequence; anything else raises
`ValueError` (modelled as `none`).  Python's optional underscore grouping
between digits is not exercised by this application and is omitted. -/
def pyInt (s : String) : Option Int :=
  match stripWS s.toList with
  | '+' :: rest => (digitsVal rest).map (fun n => (n : Int))
  | '-' :: rest => (digitsVal rest).map (fun n => -(n : Int))
  | cs => (digitsVal cs).map (fun n => (n : Int))

/-- `int(selected) if selected is not None else None` wrapped in
`try/except`: an absent form field or any parse failure becomes `None`. -/
def parseSelected (selected : Option String) : Option Int :=
  match selected with
  | none => none
  | some s => pyInt s

/-- The Flask session dict, restricted to the four keys the exam flow
touches.  `none` models an absent key; the handlers read `current_index`
and `answers` with the same defaults the Python code passes to
`session.get`. -/
structure Session where
  question_set_id : Option String
  current_index : Option Nat
  answers : Option (List (Option Int))
  time_per_question_sec : Option Int
deriving DecidableEq

/-- The session with every exam key absent (the `Idle` state). -/
def Session.idle : Session := ⟨none, none, none, none⟩

/-- The externally visible outcome of one handler call: a redirect to the
mode-selection page (every recovered error), a redirect into the exam
flow, or a rendered page with the values passed to the template. -/
inductive Response where
  | redirectSelect : Response
  | redirectQuestion : Response
  | redirectResult : Response
  | renderQuestion : Json → Nat → Nat → Int → String → Response
  | renderResult : Nat → Nat → Response

/-- `answers[idx] is not None and answers[idx] == q["answer_index"]` for
one recorded slot. -/
def answerHit (a : Option Int) (q : Json) : Bool :=
  match a with
  | none => false
  | some v => v == q_answer_index q

/-- The scoring loop of `exam_result`: over `enumerate(questions)`, count
the indices whose recorded answer is present and equals the question's
`answer_index`. -/
def scoreLoop (questions : List Json) (answers : List (Option Int)) : Nat :=
  questions.enum.foldl
    (fun score iq =>
      if decide (iq.1 < answers.length) && answerHit (answers.getD iq.1 none) iq.2
      then score + 1 else score)
    0

/-- `exam_start` from `app.py` (`POST /exam/start`): reject an absent or
empty or unindexed `question_set_id`; reject a slug whose set fails to
load; otherwise set the four session keys and redirect to the question
page. -/
def exam_start (idx : ExamIndex) (fs : FS) (cache : ExamCache) (s : Session)
    (slugIn : Option String) : Response × Session × ExamCache :=
  match slugIn with
  | none => (.redirectSelect, s, cache)
  | some slug =>
    if slug = "" then (.redirectSelect, s, cache)
    else
      match idx slug with
      | none => (.redirectSelect, s, cache)
      | some _ =>
        let r := load_set idx fs cache slug
        match r.result with
        | .error _ => (.redirectSelect, s, r.cache)
        | .ok data =>
          (.redirectQuestion, ⟨some slug, some 0, some [], some (jTime data)⟩, r.cache)

/-- `exam_question` from `app.py` (`GET /exam/question`): redirect to
selection when no session slug is set or the set fails to load; redirect
to results when `current_index` has reached the question count; otherwise
render the current question with the snapshotted time limit (falling back
to the file's value only when the snapshot key is absent). -/
def exam_question (idx : ExamIndex) (fs : FS) (cache : ExamCache) (s : Session) :
    Response × Session × ExamCache :=
  match s.question_set_id with
  | none => (.redirectSelect, s, cache)
  | some slug =>
    if slug = "" then (.redirectSelect, s, cache)
    else
      let r := load_set idx fs cache slug
      match r.result with
      | .error _ => (.redirectSelect, s, r.cache)
      | .ok data =>
        let questions := jQuestions data
        let index := s.current_index.getD 0
        if questions.length ≤ index then (.redirectResult, s, r.cache)
        else
          (.renderQuestion (questions.getD index Json.null) index questions.length
            (s.time_per_question_sec.getD (jTime data)) (jTitle data),
           s, r.cache)

/-- `exam_answer` from `app.py` (`POST /exam/answer`): redirect when no
session slug is set or the set fails to load; otherwise parse the `option`
form field, append the parsed value when `len(answers) <= current_index`
and overwrite the slot otherwise, then increment `current_index`
unconditionally. -/
def exam_answer (idx : ExamIndex) (fs : FS) (cache : ExamCache) (s : Session)
    (selected : Option String) : Response × Session × ExamCache :=
  match s.question_set_id with
  | none => (.redirectSelect, s, cache)
  | some slug =>
    if slug = "" then (.redirectSelect, s, cache)
    else
      let r := load_set idx fs cache slug
      match r.result with
      | .error _ => (.redirectSelect, s, r.cache)
      | .ok _ =>
        let selected_index := parseSelected selected
        let answers := s.answers.getD []
        let index := s.current_index.getD 0
        let answers1 :=
          if answers.length ≤ index then answers ++ [selected_index]
          else answers.set index selected_index
        (.redirectQuestion,
         ⟨some slug, some (index + 1), some answers1, s.time_per_question_sec⟩,
         r.cache)

/-- `exam_result` from `app.py` (`GET /exam/result`): redirect when no
session slug is set or the set fails to load; otherwise score the recorded
answers against the freshly loaded questions, pop all four session keys
and render the result page. -/
def exam_result (idx : ExamIndex) (fs : FS) (cache : ExamCache) (s : Session) :
    Response × Session × ExamCache :=
  match s.question_set_id with
  | none => (.redirectSelect, s, cache)
  | some slug =>
    if slug = "" then (.redirectSelect, s, cache)
    else
      let r := load_set idx fs cache slug
      match r.result with
      | .error _ => (.redirectSelect, s, r.cache)
      | .ok data =>
        let questions := jQuestions data
        let score := scoreLoop questions (s.answers.getD [])
        (.renderResult questions.length score, Session.idle, r.cache)

/-- A concrete question with six options and the given `answer_index`. -/
def mkQ (ai : Int) : Json :=
  .obj [("prompt_html", .str "p"),
        ("options", .arr [.str "a", .str "b", .str "c", .str "d", .str "e", .str "f"]),
        ("answer_index", .num ai)]

/-- The five-question demo set from the specification's scenario, with
correct indices [4, 2, 3, 3, 1]. -/
def demoExam : Json :=
  .obj [("version", .num 1), ("mode", .str "easy"), ("category", .str "language"),
        ("slug", .str "easy_language_5q"), ("title", .str "demo"),
        ("description", .str ""), ("time_per_question_sec", .num 60),
        ("questions", .arr [mkQ 4, mkQ 2, mkQ 3, mkQ 3, mkQ 1])]

/-- Metadata for the demo set. -/
def demoMeta : ExamMeta :=
  ⟨"easy", "language", "easy_language_5q", "easy/language/easy_language_5q.json",
   "demo", 5, 60⟩

/-- An index holding only the demo set. -/
def demoIdx : ExamIndex := fun s => if s = "easy_language_5q" then some demoMeta else none

/-- A filesystem on which every stat returns mtime 10 and every read
returns the demo set. -/
def demoFS : FS := ⟨fun _ => some 10, fun _ => some demoExam⟩

/-- A session that finished the demo exam with answers
[4, absent, 3, 9, 1]. -/
def demoSession : Session :=
  ⟨some "easy_language_5q", some 5, some [some 4, none, some 3, some 9, some 1], some 60⟩

/-- A filesystem on which every stat and every read fails. -/
def deadFS : FS := ⟨fun _ => none, fun _ => none⟩

/-- Counting with a fold that conditionally increments equals `countP`. -/
theorem foldl_count {α : Type} (p : α → Bool) (l : List α) :
    ∀ n : Nat, l.foldl (fun s x => if p x then s + 1 else s) n = n + l.countP p := by
  induction l with
  | nil => intro n; simp
  | cons a t ih =>
    intro n
    rw [List.foldl_cons, List.countP_cons, ih]
    cases hpa : p a
    · simp [hpa]
    · simp [hpa]
      omega

/-- Counting over `enumFrom` equals counting index positions over
`range`. -/
theorem countP_enumFrom (p : Nat × Json → Bool) (qs : List Json) :
    ∀ k : Nat,
      (List.enumFrom k qs).countP p =
        (List.range qs.length).countP (fun i => p (k + i, qs.getD i Json.null)) := by
  induction qs with
  | nil => intro k; simp [List.enumFrom]
  | cons q t ih =>
    intro k
    rw [show List.enumFrom k (q :: t) = (k, q) :: List.enumFrom (k + 1) t from rfl,
        List.countP_cons, ih (k + 1)]
    rw [List.length_cons, List.range_succ_eq_map, List.countP_cons, List.countP_map]
    have hcong : List.countP ((fun i => p (k + i, (q :: t).getD i Json.null)) ∘ Nat.succ)
        (List.range t.length) =
        List.countP (fun i => p (k + 1 + i, t.getD i Json.null)) (List.range t.length) := by
      apply List.countP_congr
      intro x _
      simp only [Function.comp_apply, Nat.succ_eq_add_one, List.getD_cons_succ]
      rw [show k + (x + 1) = k + 1 + x by omega]
    rw [hcong]
    simp only [Nat.add_zero, List.getD_cons_zero]

/-- One scoring test equals the claim-side comparison with the correct
option index. -/
theorem answerHit_eq (a : Option Int) (q : Json) :
    answerHit a q = (a == some (q_answer_index q)) := by
  cases a <;> rfl

/-- The scoring loop counts exactly the indices below the question count
whose recorded answer is present and equals the question's correct
index. -/
theorem scoreLoop_eq (questions : List Json) (answers : List (Option Int)) :
    scoreLoop questions answers =
      (List.range questions.length).countP
        (fun i => decide (i < answers.length) &&
          (answers.getD i none == some (q_answer_index (questions.getD i Json.null)))) := by
  unfold scoreLoop
  rw [foldl_count (fun iq : Nat × Json =>
        decide (iq.1 < answers.length) && answerHit (answers.getD iq.1 none) iq.2)
      questions.enum 0]
  rw [show questions.enum = List.enumFrom 0 questions from rfl]
  rw [countP_enumFrom (fun iq : Nat × Json =>
        decide (iq.1 < answers.length) && answerHit (answers.getD iq.1 none) iq.2)
      questions 0]
  rw [Nat.zero_add]
  apply List.countP_congr
  intro x _
  simp only [Nat.zero_add, answerHit_eq]

/-- C1: with an active session whose question set re-loads successfully,
`GET /exam/result` (`exam_result`) renders a score equal to the number of
question indices `i` with `i < questionCount` such that `i < len(answers)`
and `answers[i]` is present and equals question `i`'s correct option
index; absent slots, never-reached indices, and recorded values that
differ from the correct index (including out-of-range literals)
contribute nothing. -/
theorem exam_result_score_spec (idx : ExamIndex) (fs : FS) (cache : ExamCache)
    (s : Session) (slug : String) (data : Json)
    (hslug : s.question_set_id = some slug) (hne : slug ≠ "")
    (hload : (load_set idx fs cache slug).result = Except.ok data) :
    (exam_result idx fs cache s).1 =
      Response.renderResult (jQuestions data).length
        ((List.range (jQuestions data).length).countP
          (fun i => decide (i < (s.answers.getD []).length) &&
            ((s.answers.getD []).getD i none ==
              some (q_answer_index ((jQuestions data).getD i Json.null))))) := by
  simp only [exam_result, hslug, if_neg hne, hload]
  rw [scoreLoop_eq]

/-- Witness for C1: the specification's own scenario, answers
[4, absent, 3, 9, 1] against correct indices [4, 2, 3, 3, 1]. -/
theorem exam_result_score_spec_witness :
    (load_set demoIdx demoFS emptyCache "easy_language_5q").result = Except.ok demoExam ∧
    (exam_result demoIdx demoFS emptyCache demoSession).1 =
      Response.renderResult (jQuestions demoExam).length
        ((List.range (jQuestions demoExam).length).countP
          (fun i => decide (i < (demoSession.answers.getD []).length) &&
            ((demoSession.answers.getD []).getD i none ==
              some (q_answer_index ((jQuestions demoExam).getD i Json.null))))) :=
  ⟨rfl, exam_result_score_spec demoIdx demoFS emptyCache demoSession "easy_language_5q"
    demoExam rfl (by decide) rfl⟩

/-- C2: with an active session whose question set loads, `POST
/exam/answer` (`exam_answer`) records the parsed selection — absence on
any parse failure, including an absent or empty field — into
`answers[current_index]`, appending when `current_index` equals
`len(answers)` and overwriting when the slot exists, and increments
`current_index` unconditionally: no hypothesis bounds `current_index` by
the question count. -/
theorem exam_answer_record_spec (idx : ExamIndex) (fs : FS) (cache : ExamCache)
    (s : Session) (selected : Option String) (slug : String) (data : Json)
    (hslug : s.question_set_id = some slug) (hne : slug ≠ "")
    (hload : (load_set idx fs cache slug).result = Except.ok data) :
    ((exam_answer idx fs cache s selected).2.1.current_index =
        some (s.current_index.getD 0 + 1)) ∧
    (s.current_index.getD 0 = (s.answers.getD []).length →
      (exam_answer idx fs cache s selected).2.1.answers =
        some (s.answers.getD [] ++ [parseSelected selected])) ∧
    (s.current_index.getD 0 < (s.answers.getD []).length →
      (exam_answer idx fs cache s selected).2.1.answers =
        some ((s.answers.getD []).set (s.current_index.getD 0) (parseSelected selected))) ∧
    parseSelected none = none ∧ parseSelected (some "") = none := by
  refine ⟨?_, ?_, ?_, rfl, rfl⟩
  · simp only [exam_answer, hslug, if_neg hne, hload]
  · intro h
    simp only [exam_answer, hslug, if_neg hne, hload, if_pos (Nat.le_of_eq h.symm)]
  · intro h
    simp only [exam_answer, hslug, if_neg hne, hload, if_neg (Nat.not_le.mpr h)]

/-- Witness for C2: submitting "2" with `current_index` already at the
question count (5) still appends and increments to 6. -/
theorem exam_answer_record_spec_witness :
    (load_set demoIdx demoFS emptyCache "easy_language_5q").result = Except.ok demoExam ∧
    (exam_answer demoIdx demoFS emptyCache demoSession (some "2")).2.1.current_index =
      some 6 ∧
    (exam_answer demoIdx demoFS emptyCache demoSession (some "2")).2.1.answers =
      some [some 4, none, some 3, some 9, some 1, some 2] := by
  have h := exam_answer_record_spec demoIdx demoFS emptyCache demoSession (some "2")
    "easy_language_5q" demoExam rfl (by decide) rfl
  refine ⟨rfl, ?_, ?_⟩
  · rw [h.1]
    rfl
  · rw [h.2.1 rfl]
    rfl

/-- C9: with an active session whose question set fails to load, `POST
/exam/answer` redirects with an error and leaves every session field —
in particular `answers` and `current_index` — unchanged. -/
theorem exam_answer_load_failure_spec (idx : ExamIndex) (fs : FS) (cache : ExamCache)
    (s : Session) (selected : Option String) (slug : String) (e : LoadErr)
    (hslug : s.question_set_id = some slug) (hne : slug ≠ "")
    (herr : (load_set idx fs cache slug).result = Except.error e) :
    (exam_answer idx fs cache s selected).1 = Response.redirectSelect ∧
    (exam_answer idx fs cache s selected).2.1 = s := by
  refine ⟨?_, ?_⟩ <;> simp only [exam_answer, hslug, if_neg hne, herr]

/-- Witness for C9: the backing file's stat fails mid-session; the answer
submission redirects and the session is untouched. -/
theorem exam_answer_load_failure_spec_witness :
    (load_set demoIdx deadFS emptyCache "easy_language_5q").result =
      Except.error LoadErr.statError ∧
    (exam_answer demoIdx deadFS emptyCache demoSession (some "2")).1 =
      Response.redirectSelect ∧
    (exam_answer demoIdx deadFS emptyCache demoSession (some "2")).2.1 = demoSession := by
  have h := exam_answer_load_failure_spec demoIdx deadFS emptyCache demoSession (some "2")
    "easy_language_5q" LoadErr.statError rfl (by decide) rfl
  exact ⟨rfl, h.1, h.2⟩

/-- C4: `POST /exam/start` (`exam_start`) with an absent, empty or
unindexed slug, or a slug whose set fails to load, redirects with an error
and mutates no session field; on success it moves to InProgress, setting
the session's slug, `current_index = 0`, `answers = []` and the
`time_per_question_sec` snapshot taken from the freshly loaded set. -/
theorem exam_start_spec (idx : ExamIndex) (fs : FS) (cache : ExamCache) (s : Session) :
    (∀ slugIn, slugIn = none ∨ slugIn = some "" →
        exam_start idx fs cache s slugIn = (Response.redirectSelect, s, cache)) ∧
    (∀ slug, idx slug = none →
        exam_start idx fs cache s (some slug) = (Response.redirectSelect, s, cache)) ∧
    (∀ slug e, (load_set idx fs cache slug).result = Except.error e →
        (exam_start idx fs cache s (some slug)).1 = Response.redirectSelect ∧
        (exam_start idx fs cache s (some slug)).2.1 = s) ∧
    (∀ slug data, slug ≠ "" → idx slug ≠ none →
        (load_set idx fs cache slug).result = Except.ok data →
        (exam_start idx fs cache s (some slug)).1 = Response.redirectQuestion ∧
        (exam_start idx fs cache s (some slug)).2.1 =
          ⟨some slug, some 0, some [], some (jTime data)⟩) := by
  refine ⟨?_, ?_, ?_, ?_⟩
  · rintro slugIn (rfl | rfl)
    · rfl
    · simp [exam_start]
  · intro slug hidx
    by_cases hne : slug = ""
    · subst hne; simp [exam_start]
    · simp [exam_start, if_neg hne, hidx]
  · intro slug e herr
    by_cases hne : slug = ""
    · subst hne
      refine ⟨?_, ?_⟩ <;> simp [exam_start]
    · cases hidx : idx slug with
      | none => refine ⟨?_, ?_⟩ <;> simp [exam_start, if_neg hne, hidx]
      | some m => refine ⟨?_, ?_⟩ <;> simp [exam_start, if_neg hne, hidx, herr]
  · intro slug data hne hidx hok
    cases hidxv : idx slug with
    | none => exact absurd hidxv hidx
    | some m => refine ⟨?_, ?_⟩ <;> simp [exam_start, if_neg hne, hidxv, hok]

/-- Witness for C4: starting the demo set from an idle session sets all
four fields. -/
theorem exam_start_spec_witness :
    demoIdx "easy_language_5q" ≠ none ∧
    (load_set demoIdx demoFS emptyCache "easy_language_5q").result = Except.ok demoExam ∧
    (exam_start demoIdx demoFS emptyCache Session.idle (some "easy_language_5q")).1 =
      Response.redirectQuestion ∧
    (exam_start demoIdx demoFS emptyCache Session.idle (some "easy_language_5q")).2.1 =
      ⟨some "easy_language_5q", some 0, some [], some 60⟩ := by
  have h := (exam_start_spec demoIdx demoFS emptyCache Session.idle).2.2.2
    "easy_language_5q" demoExam (by decide) (by decide) rfl
  refine ⟨by decide, rfl, h.1, ?_⟩
  rw [h.2]
  rfl

/-- C3 counterexample: with an active session whose question set fails to
re-load, `GET /exam/result` redirects but leaves every session field in
place, so the session is not cleared even though `ComputeResult` ran with
an active session. -/
theorem exam_result_clear_cex :
    demoSession.question_set_id ≠ none ∧
    (exam_result demoIdx deadFS emptyCache demoSession).1 = Response.redirectSelect ∧
    (exam_result demoIdx deadFS emptyCache demoSession).2.1 = demoSession ∧
    (exam_result demoIdx deadFS emptyCache demoSession).2.1 ≠ Session.idle := by
  exact ⟨by decide, rfl, rfl, by decide⟩

/-- C3 (amended): when `GET /exam/result` runs with an active session and
the question set re-loads successfully, it clears all four session fields
(returning to Idle), so the result is viewable at most once: a second
`GET /exam/result` with no intervening start fails and redirects to
selection; when the re-load fails, the handler redirects and leaves the
session fields unchanged. -/
theorem exam_result_clear_spec (idx : ExamIndex) (fs : FS) (cache : ExamCache)
    (s : Session) (slug : String)
    (hslug : s.question_set_id = some slug) (hne : slug ≠ "") :
    ((∃ data, (load_set idx fs cache slug).result = Except.ok data) →
      (exam_result idx fs cache s).2.1 = Session.idle ∧
      ∀ idx2 fs2 cache2,
        (exam_result idx2 fs2 cache2 (exam_result idx fs cache s).2.1).1 =
          Response.redirectSelect ∧
        (exam_result idx2 fs2 cache2 (exam_result idx fs cache s).2.1).2.1 =
          Session.idle) ∧
    ((∃ e, (load_set idx fs cache slug).result = Except.error e) →
      (exam_result idx fs cache s).2.1 = s) := by
  constructor
  · rintro ⟨data, hload⟩
    have hclear : (exam_result idx fs cache s).2.1 = Session.idle := by
      simp only [exam_result, hslug, if_neg hne, hload]
    refine ⟨hclear, ?_⟩
    intro idx2 fs2 cache2
    rw [hclear]
    exact ⟨rfl, rfl⟩
  · rintro ⟨e, herr⟩
    simp only [exam_result, hslug, if_neg hne, herr]

/-- Witness for C3 (amended): viewing the demo result clears the session
and a second view redirects to selection. -/
theorem exam_result_clear_spec_witness :
    (load_set demoIdx demoFS emptyCache "easy_language_5q").result = Except.ok demoExam ∧
    (exam_result demoIdx demoFS emptyCache demoSession).2.1 = Session.idle ∧
    (exam_result demoIdx demoFS emptyCache
        (exam_result demoIdx demoFS emptyCache demoSession).2.1).1 =
      Response.redirectSelect := by
  have h := (exam_result_clear_spec demoIdx demoFS emptyCache demoSession
    "easy_language_5q" rfl (by decide)).1 ⟨demoExam, rfl⟩
  exact ⟨rfl, h.1, (h.2 demoIdx demoFS emptyCache).1⟩

/-- A session in the middle of the demo exam: two questions answered,
`current_index = 2`. -/
def midSession : Session :=
  ⟨some "easy_language_5q", some 2, some [some 4, none], some 60⟩

/-- C8: `GET /exam/question` (`exam_question`) redirects to selection when
no session slug is set (NoActiveSession); with a loadable set and
`current_index` at or past the question count it redirects to results
without mutating any session field; otherwise it renders the question at
`current_index` together with the 0-based index, the total count, the
`time_per_question_sec` snapshot taken at exam start (not the current
file's value) and the set's title. -/
theorem exam_question_show_spec (idx : ExamIndex) (fs : FS) (cache : ExamCache)
    (s : Session) :
    ((s.question_set_id = none ∨ s.question_set_id = some "") →
        exam_question idx fs cache s = (Response.redirectSelect, s, cache)) ∧
    (∀ slug data, s.question_set_id = some slug → slug ≠ "" →
      (load_set idx fs cache slug).result = Except.ok data →
      ((jQuestions data).length ≤ s.current_index.getD 0 →
        (exam_question idx fs cache s).1 = Response.redirectResult ∧
        (exam_question idx fs cache s).2.1 = s) ∧
      (∀ tl, s.time_per_question_sec = some tl →
        s.current_index.getD 0 < (jQuestions data).length →
        (exam_question idx fs cache s).1 =
          Response.renderQuestion ((jQuestions data).getD (s.current_index.getD 0) Json.null)
            (s.current_index.getD 0) (jQuestions data).length tl (jTitle data) ∧
        (exam_question idx fs cache s).2.1 = s)) := by
  constructor
  · rintro (hq | hq) <;> simp [exam_question, hq]
  · intro slug data hslug hne hload
    constructor
    · intro hge
      refine ⟨?_, ?_⟩ <;>
        simp only [exam_question, hslug, if_neg hne, hload, if_pos hge]
    · intro tl htl hlt
      refine ⟨?_, ?_⟩ <;>
        simp only [exam_question, hslug, if_neg hne, hload, htl,
          if_neg (Nat.not_le.mpr hlt), Option.getD_some]

/-- Witness for C8: the finished demo session redirects to results; the
mid-exam session renders question 2 of 5 with the snapshotted 60-second
limit. -/
theorem exam_question_show_spec_witness :
    (load_set demoIdx demoFS emptyCache "easy_language_5q").result = Except.ok demoExam ∧
    (exam_question demoIdx demoFS emptyCache demoSession).1 = Response.redirectResult ∧
    (exam_question demoIdx demoFS emptyCache midSession).1 =
      Response.renderQuestion (mkQ 3) 2 5 60 "demo" := by
  have h1 := (exam_question_show_spec demoIdx demoFS emptyCache demoSession).2
    "easy_language_5q" demoExam rfl (by decide) rfl
  have h2 := (exam_question_show_spec demoIdx demoFS emptyCache midSession).2
    "easy_language_5q" demoExam rfl (by decide) rfl
  refine ⟨rfl, (h1.1 (by decide)).1, ?_⟩
  rw [(h2.2 60 rfl (by decide)).1]
  rfl

/-- `len(answers) == current_index`: one exam session slot per question
already advanced past. -/
def sessionInv (s : Session) : Prop :=
  (s.answers.getD []).length = s.current_index.getD 0

/-- A successful `exam_start` ends in the freshly initialised session. -/
theorem exam_start_success (idx : ExamIndex) (fs : FS) (cache : ExamCache)
    (s : Session) (slugIn : Option String)
    (h : (exam_start idx fs cache s slugIn).1 = Response.redirectQuestion) :
    ∃ slug data, slugIn = some slug ∧
      (load_set idx fs cache slug).result = Except.ok data ∧
      (exam_start idx fs cache s slugIn).2.1 =
        ⟨some slug, some 0, some [], some (jTime data)⟩ := by
  cases slugIn with
  | none => simp [exam_start] at h
  | some slug =>
    by_cases hne : slug = ""
    · subst hne; simp [exam_start] at h
    · cases hidx : idx slug with
      | none => simp [exam_start, if_neg hne, hidx] at h
      | some m =>
        cases hres : (load_set idx fs cache slug).result with
        | error e => simp [exam_start, if_neg hne, hidx, hres] at h
        | ok data =>
          exact ⟨slug, data, rfl, hres, by simp [exam_start, if_neg hne, hidx, hres]⟩

/-- C10: `len(answers) == current_index` is an invariant of the exam
session: a successful `exam_start` establishes it, every `exam_answer`
run preserves it, and under it a successful `exam_answer` always appends,
writing at position `current_index`. -/
theorem exam_session_invariant_spec (idx : ExamIndex) (fs : FS) (cache : ExamCache) :
    (∀ s slugIn, (exam_start idx fs cache s slugIn).1 = Response.redirectQuestion →
        sessionInv (exam_start idx fs cache s slugIn).2.1) ∧
    (∀ s selected, sessionInv s →
        sessionInv (exam_answer idx fs cache s selected).2.1) ∧
    (∀ s selected, sessionInv s →
        (exam_answer idx fs cache s selected).1 = Response.redirectQuestion →
        (exam_answer idx fs cache s selected).2.1.answers =
          some (s.answers.getD [] ++ [parseSelected selected]) ∧
        (exam_answer idx fs cache s selected).2.1.current_index =
          some ((s.answers.getD []).length + 1)) := by
  refine ⟨?_, ?_, ?_⟩
  · intro s slugIn h
    obtain ⟨slug, data, hin, hres, hstate⟩ := exam_start_success idx fs cache s slugIn h
    rw [hstate]
    simp [sessionInv]
  · intro s selected hinv
    cases hq : s.question_set_id with
    | none =>
      rw [show (exam_answer idx fs cache s selected).2.1 = s from by simp [exam_answer, hq]]
      exact hinv
    | some slug =>
      by_cases hne : slug = ""
      · subst hne
        rw [show (exam_answer idx fs cache s selected).2.1 = s from by
          simp [exam_answer, hq]]
        exact hinv
      · cases hres : (load_set idx fs cache slug).result with
        | error e =>
          rw [show (exam_answer idx fs cache s selected).2.1 = s from by
            simp [exam_answer, hq, if_neg hne, hres]]
          exact hinv
        | ok data =>
          have hle : (s.answers.getD []).length ≤ s.current_index.getD 0 :=
            Nat.le_of_eq hinv
          rw [show (exam_answer idx fs cache s selected).2.1 =
              ⟨some slug, some (s.current_index.getD 0 + 1),
               some (s.answers.getD [] ++ [parseSelected selected]),
               s.time_per_question_sec⟩ from by
            simp [exam_answer, hq, if_neg hne, hres, if_pos hle]]
          have hlen : (s.answers.getD []).length = s.current_index.getD 0 := hinv
          simp [sessionInv, hlen]
  · intro s selected hinv hok
    cases hq : s.question_set_id with
    | none => simp [exam_answer, hq] at hok
    | some slug =>
      by_cases hne : slug = ""
      · subst hne; simp [exam_answer, hq] at hok
      · cases hres : (load_set idx fs cache slug).result with
        | error e => simp [exam_answer, hq, if_neg hne, hres] at hok
        | ok data =>
          have hle : (s.answers.getD []).length ≤ s.current_index.getD 0 :=
            Nat.le_of_eq hinv
          constructor
          · simp [exam_answer, hq, if_neg hne, hres, if_pos hle]
          · rw [show (exam_answer idx fs cache s selected).2.1.current_index =
                some (s.current_index.getD 0 + 1) from by
              simp [exam_answer, hq, if_neg hne, hres]]
            rw [hinv]

/-- Witness for C10: starting the demo exam establishes the invariant and
an answer submission preserves it while appending at the current index. -/
theorem exam_session_invariant_spec_witness :
    (exam_start demoIdx demoFS emptyCache Session.idle (some "easy_language_5q")).1 =
      Response.redirectQuestion ∧
    sessionInv (exam_start demoIdx demoFS emptyCache Session.idle
      (some "easy_language_5q")).2.1 ∧
    sessionInv (exam_answer demoIdx demoFS emptyCache midSession (some "2")).2.1 := by
  have h1 := (exam_session_invariant_spec demoIdx demoFS emptyCache).1
    Session.idle (some "easy_language_5q") rfl
  have h2 := (exam_session_invariant_spec demoIdx demoFS emptyCache).2.1
    midSession (some "2") rfl
  exact ⟨rfl, h1, h2⟩

/-- Every branch of the re-read helper opens the file exactly once. -/
theorem readAndValidate_reads (fs : FS) (cache : ExamCache) (slug : String)
    (m : ExamMeta) (mtime : Int) :
    (readAndValidate fs cache slug m mtime).reads = 1 := by
  unfold readAndValidate
  cases fs.read m.path with
  | none => rfl
  | some data =>
    by_cases h : validate_exam data m.mode m.category m.slug = true
    · simp [h]
    · simp [h]

/-- When the re-read helper returns data, the cache entry for the slug
becomes (current mtime, that data). -/
theorem readAndValidate_ok_cache (fs : FS) (cache : ExamCache) (slug : String)
    (m : ExamMeta) (mtime : Int) (d : Json)
    (hok : (readAndValidate fs cache slug m mtime).result = Except.ok d) :
    (readAndValidate fs cache slug m mtime).cache slug = some (mtime, d) := by
  cases hread : fs.read m.path with
  | none =>
    have hbody : (readAndValidate fs cache slug m mtime).result =
        Except.error LoadErr.parseError := by
      unfold readAndValidate
      rw [hread]
    rw [hbody] at hok
    simp at hok
  | some data =>
    by_cases hval : validate_exam data m.mode m.category m.slug = true
    · have hbody : readAndValidate fs cache slug m mtime =
          ⟨Except.ok data, fun s => if s = slug then some (mtime, data) else cache s, 1⟩ := by
        unfold readAndValidate
        rw [hread]
        simp [hval]
      rw [hbody] at hok ⊢
      have hd : data = d := by simpa using hok
      simp [hd]
    · have hbody : readAndValidate fs cache slug m mtime =
          ⟨Except.error LoadErr.invalidData, cache, 1⟩ := by
        unfold readAndValidate
        rw [hread]
        simp [hval]
      rw [hbody] at hok
      simp at hok

/-- C7: for an indexed, pattern-accepted slug whose backing file stats,
`load_set` returns the cached set without opening the file exactly when a
cache entry with recorded mtime ≥ the file's current mtime exists; a
strictly newer mtime triggers exactly one re-read with re-validation and
replacement of the cache entry by (new mtime, parsed data); and a
successful call is idempotent: repeating it on the unchanged filesystem
returns identical content with no read and an unchanged cache. -/
theorem load_set_cache_spec (idx : ExamIndex) (fs : FS) (cache : ExamCache)
    (slug : String) (m : ExamMeta) (mtime : Int)
    (hm : slugMatch slug = true) (hidx : idx slug = some m)
    (hstat : fs.stat m.path = some mtime) :
    (∀ t d, cache slug = some (t, d) → mtime ≤ t →
        load_set idx fs cache slug = ⟨Except.ok d, cache, 0⟩) ∧
    ((load_set idx fs cache slug).reads = 0 →
        ∃ t d, cache slug = some (t, d) ∧ mtime ≤ t) ∧
    (∀ t d, cache slug = some (t, d) → t < mtime →
        (load_set idx fs cache slug).reads = 1 ∧
        (∀ data, fs.read m.path = some data →
          validate_exam data m.mode m.category m.slug = true →
          (load_set idx fs cache slug).result = Except.ok data ∧
          (load_set idx fs cache slug).cache slug = some (mtime, data))) ∧
    (∀ d, (load_set idx fs cache slug).result = Except.ok d →
        load_set idx fs (load_set idx fs cache slug).cache slug =
          ⟨Except.ok d, (load_set idx fs cache slug).cache, 0⟩) := by
  refine ⟨?_, ?_, ?_, ?_⟩
  · intro t d hc hle
    simp [load_set, hm, hidx, hstat, hc, if_pos hle]
  · intro hr
    cases hc : cache slug with
    | none =>
      exfalso
      rw [show load_set idx fs cache slug = readAndValidate fs cache slug m mtime from by
        simp [load_set, hm, hidx, hstat, hc]] at hr
      rw [readAndValidate_reads] at hr
      exact Nat.one_ne_zero hr
    | some c =>
      by_cases hle : mtime ≤ c.1
      · exact ⟨c.1, c.2, by simp [hc], hle⟩
      · exfalso
        rw [show load_set idx fs cache slug = readAndValidate fs cache slug m mtime from by
          simp [load_set, hm, hidx, hstat, hc, if_neg hle]] at hr
        rw [readAndValidate_reads] at hr
        exact Nat.one_ne_zero hr
  · intro t d hc hlt
    have hbody : load_set idx fs cache slug = readAndValidate fs cache slug m mtime := by
      simp [load_set, hm, hidx, hstat, hc, if_neg (not_le.mpr hlt)]
    refine ⟨by rw [hbody, readAndValidate_reads], ?_⟩
    intro data hread hval
    rw [hbody]
    constructor
    · simp [readAndValidate, hread, hval]
    · simp [readAndValidate, hread, hval]
  · intro d hok
    have hcc : ∃ t, (load_set idx fs cache slug).cache slug = some (t, d) ∧ mtime ≤ t := by
      cases hc : cache slug with
      | none =>
        have hbody : load_set idx fs cache slug = readAndValidate fs cache slug m mtime := by
          simp [load_set, hm, hidx, hstat, hc]
        rw [hbody] at hok ⊢
        exact ⟨mtime, readAndValidate_ok_cache fs cache slug m mtime d hok, le_refl mtime⟩
      | some c =>
        by_cases hle : mtime ≤ c.1
        · have hbody : load_set idx fs cache slug = ⟨Except.ok c.2, cache, 0⟩ := by
            simp [load_set, hm, hidx, hstat, hc, if_pos hle]
          rw [hbody] at hok ⊢
          have hd : c.2 = d := by simpa using hok
          have hcd : some c = some (c.1, d) := by rw [← hd]
          exact ⟨c.1, hc.trans hcd, hle⟩
        · have hbody : load_set idx fs cache slug = readAndValidate fs cache slug m mtime := by
            simp [load_set, hm, hidx, hstat, hc, if_neg hle]
          rw [hbody] at hok ⊢
          exact ⟨mtime, readAndValidate_ok_cache fs cache slug m mtime d hok, le_refl mtime⟩
    obtain ⟨t, hc2, hle2⟩ := hcc
    generalize hg : (load_set idx fs cache slug).cache = cache2 at hc2 ⊢
    simp [load_set, hm, hidx, hstat, hc2, if_pos hle2]

/-- Witness for C7: a cold-cache load of the demo set succeeds, and the
immediately repeated call serves the cache with zero reads. -/
theorem load_set_cache_spec_witness :
    (load_set demoIdx demoFS emptyCache "easy_language_5q").result = Except.ok demoExam ∧
    load_set demoIdx demoFS (load_set demoIdx demoFS emptyCache "easy_language_5q").cache
        "easy_language_5q" =
      ⟨Except.ok demoExam, (load_set demoIdx demoFS emptyCache "easy_language_5q").cache,
       0⟩ := by
  have h := (load_set_cache_spec demoIdx demoFS emptyCache "easy_language_5q" demoMeta 10
    (by decide) (by decide) rfl).2.2.2 demoExam rfl
  exact ⟨rfl, h⟩

/-- C6 (amended): `load_set` fails with InvalidSlug exactly when Python's
anchored `[a-z0-9_-]+` pattern rejects the slug — that pattern also
accepts a slug-shaped string with one trailing newline; a slug the
pattern accepts but the index lacks fails with UnknownSlug; a re-read
file that parses but fails schema re-validation fails with InvalidData;
the checks apply in that order, and no failure mode returns normally: a
normal return implies the pattern accepted the slug and the index
contained it. -/
theorem load_set_errors_spec (idx : ExamIndex) (fs : FS) (cache : ExamCache) :
    (∀ slug, slugMatch slug = false →
        (load_set idx fs cache slug).result = Except.error LoadErr.invalidSlug) ∧
    (∀ slug, slugMatch slug = true → idx slug = none →
        (load_set idx fs cache slug).result = Except.error LoadErr.unknownSlug) ∧
    (∀ slug m mtime data, slugMatch slug = true → idx slug = some m →
        fs.stat m.path = some mtime →
        (∀ t d, cache slug = some (t, d) → t < mtime) →
        fs.read m.path = some data →
        validate_exam data m.mode m.category m.slug = false →
        (load_set idx fs cache slug).result = Except.error LoadErr.invalidData) ∧
    (∀ slug d, (load_set idx fs cache slug).result = Except.ok d →
        slugMatch slug = true ∧ idx slug ≠ none) := by
  refine ⟨?_, ?_, ?_, ?_⟩
  · intro slug hm
    simp [load_set, hm]
  · intro slug hm hidx
    simp [load_set, hm, hidx]
  · intro slug m mtime data hm hidx hstat hstale hread hval
    have hbody : load_set idx fs cache slug = readAndValidate fs cache slug m mtime := by
      cases hc : cache slug with
      | none => simp [load_set, hm, hidx, hstat, hc]
      | some c =>
        have hlt := hstale c.1 c.2 (by simp [hc])
        simp [load_set, hm, hidx, hstat, hc, if_neg (not_le.mpr hlt)]
    rw [hbody]
    unfold readAndValidate
    rw [hread]
    simp [hval]
  · intro slug d hok
    by_cases hm : slugMatch slug = true
    · refine ⟨hm, ?_⟩
      intro hidx
      rw [show (load_set idx fs cache slug).result = Except.error LoadErr.unknownSlug from by
        simp [load_set, hm, hidx]] at hok
      simp at hok
    · have hm2 : slugMatch slug = false := Bool.eq_false_iff.mpr hm
      rw [show (load_set idx fs cache slug).result = Except.error LoadErr.invalidSlug from by
        simp [load_set, hm2]] at hok
      simp at hok

/-- C6 counterexample: the string "abc" followed by a newline does not
match the pattern `[a-z0-9_-]+` as the specification words it, yet
`load_set` fails with UnknownSlug rather than InvalidSlug, because
Python's `$` also matches just before a trailing newline. -/
theorem load_set_errors_cex :
    specSlugPattern "abc\n" = false ∧
    slugMatch "abc\n" = true ∧
    (load_set emptyIdx deadFS emptyCache "abc\n").result =
      Except.error LoadErr.unknownSlug ∧
    (load_set emptyIdx deadFS emptyCache "abc\n").result ≠
      Except.error LoadErr.invalidSlug := by
  refine ⟨by decide, by decide, rfl, ?_⟩
  intro h
  have h0 : (load_set emptyIdx deadFS emptyCache "abc\n").result =
      Except.error LoadErr.unknownSlug := rfl
  rw [h0] at h
  exact LoadErr.noConfusion (Except.error.inj h)

/-- Witness for C6 (amended): an uppercase slug is rejected as
InvalidSlug before any index lookup. -/
theorem load_set_errors_spec_witness :
    slugMatch "ABC" = false ∧
    (load_set demoIdx demoFS emptyCache "ABC").result =
      Except.error LoadErr.invalidSlug := by
  have h := (load_set_errors_spec demoIdx demoFS emptyCache).1 "ABC" (by decide)
  exact ⟨by decide, h⟩

/-- The lookup that one `stepT` step produces. -/
theorem stepT_lookup (i : ExamIndex) (t : String × String × JsonFile) (s : String) :
    stepT i t s =
      (match t.2.2.content with
       | none => i s
       | some data =>
         if validate_exam data t.1 t.2.1 t.2.2.stem = true then
           (if s = t.2.2.stem then some (metaOf t.1 t.2.1 t.2.2 data) else i s)
         else i s) := by
  unfold stepT stepFile
  cases t.2.2.content with
  | none => rfl
  | some data =>
    show (if validate_exam data t.1 t.2.1 t.2.2.stem = true then
        fun s2 => if s2 = t.2.2.stem then some (metaOf t.1 t.2.1 t.2.2 data) else i s2
      else i) s =
      (if validate_exam data t.1 t.2.1 t.2.2.stem = true then
        (if s = t.2.2.stem then some (metaOf t.1 t.2.1 t.2.2 data) else i s)
      else i s)
    by_cases hval : validate_exam data t.1 t.2.1 t.2.2.stem = true
    · rw [if_pos hval, if_pos hval]
    · rw [if_neg hval, if_neg hval]

/-- Folding the per-file step over the files of one category equals
folding `stepT` over the flattened triples. -/
theorem files_fold_eq (mode cat : String) (files : List JsonFile) :
    ∀ i : ExamIndex, files.foldl (stepFile mode cat) i =
      (files.map (fun f => (mode, cat, f))).foldl stepT i := by
  induction files with
  | nil => intro i; rfl
  | cons f t ih =>
    intro i
    simp only [List.map_cons, List.foldl_cons]
    exact ih (stepFile mode cat i f)

/-- Folding over the categories of one mode equals folding `stepT` over
the flattened triples. -/
theorem cats_fold_eq (mname : String) (cats : List CatDir) :
    ∀ i : ExamIndex,
      cats.foldl (fun i2 cd => cd.files.foldl (stepFile mname cd.name) i2) i =
        (cats.flatMap (fun cd => cd.files.map (fun f => (mname, cd.name, f)))).foldl
          stepT i := by
  induction cats with
  | nil => intro i; rfl
  | cons cd t ih =>
    intro i
    rw [List.foldl_cons, ih, List.flatMap_cons, List.foldl_append, files_fold_eq]

/-- The nested directory scan of `build_index` equals one fold of `stepT`
over the flattened file list. -/
theorem build_index_eq_flat (modes : List ModeDir) :
    ∀ i : ExamIndex,
      modes.foldl
        (fun idx md => md.cats.foldl
          (fun idx2 cd => cd.files.foldl (stepFile md.name cd.name) idx2) idx) i =
      (allFiles modes).foldl stepT i := by
  induction modes with
  | nil => intro i; rfl
  | cons md t ih =>
    intro i
    rw [List.foldl_cons, ih]
    unfold allFiles
    rw [List.flatMap_cons, List.foldl_append, cats_fold_eq]

/-- `build_index` over a present root is the flat fold from the empty
index. -/
theorem build_index_flat (modes : List ModeDir) :
    build_index (some modes) = (allFiles modes).foldl stepT emptyIdx :=
  build_index_eq_flat modes emptyIdx

/-- A step on a parse-failed or invalid file changes nothing. -/
theorem stepT_invalid (i : ExamIndex) (t : String × String × JsonFile)
    (h : validT t = false) : stepT i t = i := by
  unfold validT validFile at h
  unfold stepT stepFile
  cases hc : t.2.2.content with
  | none => rfl
  | some data =>
    simp only [hc] at h
    simp [h]

/-- Dropping the invalid files from the scan changes nothing: the fold
only acts on valid files. -/
theorem foldl_stepT_filter (L : List (String × String × JsonFile)) :
    ∀ i : ExamIndex, (L.filter validT).foldl stepT i = L.foldl stepT i := by
  induction L with
  | nil => intro i; rfl
  | cons t l ih =>
    intro i
    rw [List.foldl_cons]
    cases hv : validT t with
    | true => rw [List.filter_cons, if_pos hv, List.foldl_cons, ih]
    | false => rw [List.filter_cons, if_neg (by simp [hv]), ih, stepT_invalid i t hv]

/-- A lookup the fold answers comes from a valid file with that stem, or
from the initial index. -/
theorem foldl_stepT_lookup (L : List (String × String × JsonFile)) :
    ∀ (i : ExamIndex) (s : String) (m : ExamMeta),
      (L.foldl stepT i) s = some m →
      (∃ t ∈ L, ∃ data, t.2.2.content = some data ∧
        validate_exam data t.1 t.2.1 t.2.2.stem = true ∧ t.2.2.stem = s ∧
        m = metaOf t.1 t.2.1 t.2.2 data) ∨ i s = some m := by
  induction L with
  | nil => intro i s m h; exact Or.inr h
  | cons t l ih =>
    intro i s m h
    rw [List.foldl_cons] at h
    rcases ih (stepT i t) s m h with hmem | hbase
    · left
      obtain ⟨t2, ht2, rest⟩ := hmem
      exact ⟨t2, List.mem_cons_of_mem _ ht2, rest⟩
    · rw [stepT_lookup] at hbase
      split at hbase
      · exact Or.inr hbase
      · rename_i data hc
        split at hbase
        · rename_i hval
          split at hbase
          · rename_i hs
            left
            exact ⟨t, List.mem_cons_self t l, data, hc, hval, hs.symm,
              (Option.some.inj hbase).symm⟩
          · exact Or.inr hbase
        · exact Or.inr hbase

/-- The fold never erases an entry. -/
theorem foldl_stepT_ne_none (L : List (String × String × JsonFile)) :
    ∀ (i : ExamIndex) (s : String), i s ≠ none → (L.foldl stepT i) s ≠ none := by
  induction L with
  | nil => intro i s h; exact h
  | cons t l ih =>
    intro i s h
    rw [List.foldl_cons]
    apply ih
    rw [stepT_lookup]
    split
    · exact h
    · split
      · split
        · simp
        · exact h
      · exact h

/-- Every valid scanned file leaves an entry under its stem. -/
theorem foldl_stepT_mem (L : List (String × String × JsonFile)) :
    ∀ (i : ExamIndex) (t : String × String × JsonFile), t ∈ L → validT t = true →
      (L.foldl stepT i) t.2.2.stem ≠ none := by
  induction L with
  | nil => intro i t h hv; exact absurd h (List.not_mem_nil t)
  | cons a l ih =>
    intro i t hmem hv
    rw [List.foldl_cons]
    rcases List.mem_cons.mp hmem with rfl | hmem2
    · apply foldl_stepT_ne_none
      rw [stepT_lookup]
      unfold validT validFile at hv
      split
      · rename_i hc
        simp only [hc] at hv
        exact absurd hv (by simp)
      · rename_i data hc
        simp only [hc] at hv
        rw [if_pos hv, if_pos rfl]
        simp
    · exact ih (stepT i a) t hmem2 hv

/-- C5: over any directory tree, every entry `build_index` answers comes
from a file that parsed and validated against its directory-derived mode,
category and stem, with `num_questions` equal to the length of that
file's `questions` array; every valid file leaves exactly one entry under
its stem; and files that fail parsing or validation are silently skipped
without aborting the scan: the index equals the one built from the valid
files alone. -/
theorem build_index_spec (modes : List ModeDir) :
    (∀ s m, build_index (some modes) s = some m →
        ∃ t ∈ allFiles modes, ∃ data, t.2.2.content = some data ∧
          validate_exam data t.1 t.2.1 t.2.2.stem = true ∧ t.2.2.stem = s ∧
          m = metaOf t.1 t.2.1 t.2.2 data ∧
          m.num_questions = (jQuestions data).length) ∧
    (∀ t ∈ allFiles modes, validT t = true →
        ∃ m, build_index (some modes) t.2.2.stem = some m) ∧
    (∀ s, build_index (some modes) s =
        ((allFiles modes).filter validT).foldl stepT emptyIdx s) := by
  refine ⟨?_, ?_, ?_⟩
  · intro s m h
    rw [build_index_flat] at h
    rcases foldl_stepT_lookup (allFiles modes) emptyIdx s m h with hmem | hbase
    · obtain ⟨t, ht, data, hc, hval, hstem, hm⟩ := hmem
      exact ⟨t, ht, data, hc, hval, hstem, hm, by rw [hm]; rfl⟩
    · exact absurd hbase (by simp [emptyIdx])
  · intro t ht hv
    have hne := foldl_stepT_mem (allFiles modes) emptyIdx t ht hv
    rw [build_index_flat]
    exact Option.ne_none_iff_exists'.mp hne
  · intro s
    rw [build_index_flat, foldl_stepT_filter]

/-- The demo file under `easy/language`. -/
def demoFile : JsonFile := ⟨"easy_language_5q", some demoExam⟩

/-- A file whose JSON is a bare string: it parses but fails validation. -/
def badFile : JsonFile := ⟨"bad_set", some (Json.str "junk")⟩

/-- A one-mode, one-category tree holding a malformed file next to the
demo file. -/
def demoTree : List ModeDir := [⟨"easy", [⟨"language", [badFile, demoFile]⟩]⟩]

/-- Witness for C5: in the demo tree the valid file is indexed under its
stem and the malformed neighbour is skipped without blocking it. -/
theorem build_index_spec_witness :
    ("easy", "language", demoFile) ∈ allFiles demoTree ∧
    validT ("easy", "language", demoFile) = true ∧
    (∃ m, build_index (some demoTree) "easy_language_5q" = some m) ∧
    build_index (some demoTree) "bad_set" = none := by
  have hmem : ("easy", "language", demoFile) ∈ allFiles demoTree := by
    show ("easy", "language", demoFile) ∈
      [("easy", "language", badFile), ("easy", "language", demoFile)]
    exact List.mem_cons_of_mem _ (List.mem_cons_self _ _)
  have h := (build_index_spec demoTree).2.1 ("easy", "language", demoFile) hmem (by decide)
  exact ⟨hmem, by decide, h, rfl⟩
